import Mathlib

/-!
Verification of the maskforge photomask-generation pipelines.

The development embeds the geometric/compositing core of the repository:
the bitmap dual-circle compositor (`bitmap2lcdmask.py`), the GDS adapter
and dual-circle compositor (`gds2lcdmask.py`), and the Gerber PCB-canvas
compositor (`gerber2lcdmask.py`; the identical code also lives in
`maskforge_toolkit.py`).

Modelling conventions:
* Pixel values and millimeter quantities are exact rationals (`ℚ`); the
  Python programs use IEEE floats and 8-bit pixels, which we idealize as
  exact arithmetic.
* An image is a total pixel function `ℤ → ℤ → ℚ` together with its
  width and height; only coordinates inside `[0,w) × [0,h)` are
  meaningful, and theorems carry in-bounds hypotheses where a statement
  depends on the domain.
* Python `int()` is truncation toward zero (`pyInt`), Python `round` is
  round-half-to-even (`pyRound`), Python `//` is floor division
  (`Int.fdiv`), and `math.ceil` is `Int.ceil`.
* Pillow's LANCZOS resampling is modelled as an arbitrary linear
  resampling scheme (`Resampler`) whose per-output-pixel weights sum
  to 1 (`Resampler.Normalized`), followed by the clamp to `[0,255]`
  that Pillow applies to 8-bit images.  The concrete Lanczos kernel is
  library code outside this repository; every theorem that needs the
  resampler quantifies over an arbitrary normalized scheme.
* Pillow's `draw.ellipse` rasterization is modelled by the standard
  pixel-center-inside-ellipse test; the claims below depend only on the
  same mask being used for both circle placements, not on its shape.
* `draw.polygon` (GDS polygon rasterization) is modelled by an
  arbitrary coverage predicate passed as a parameter; no claim depends
  on which pixels a polygon covers.
-/

namespace Maskforge

/-- Python `round`: round half to even, on exact rationals. -/
def pyRound (q : ℚ) : ℤ :=
  if q - ⌊q⌋ < 1/2 then ⌊q⌋
  else if (1 : ℚ)/2 < q - ⌊q⌋ then ⌊q⌋ + 1
  else if ⌊q⌋ % 2 = 0 then ⌊q⌋ else ⌊q⌋ + 1

/-- Python `int()` on a real number: truncation toward zero. -/
def pyInt (q : ℚ) : ℤ := if 0 ≤ q then ⌊q⌋ else ⌈q⌉

/-- Grayscale image: width, height, and a total pixel function.
Only coordinates in `[0,w) × [0,h)` are meaningful. -/
@[ext]
structure Img where
  w : ℕ
  h : ℕ
  px : ℤ → ℤ → ℚ

/-- `Image.new("L", (w, h), c)`: constant image. -/
def Img.new (w h : ℕ) (c : ℚ) : Img := ⟨w, h, fun _ _ => c⟩

/-- `ImageOps.mirror`: horizontal (left-right) flip. -/
def Img.mirror (i : Img) : Img :=
  ⟨i.w, i.h, fun x y => i.px ((i.w : ℤ) - 1 - x) y⟩

/-- `ImageOps.invert` on mode `L`: pointwise `255 - value`. -/
def Img.invert (i : Img) : Img :=
  ⟨i.w, i.h, fun x y => 255 - i.px x y⟩

/-- `img.point(lambda x: 255 if x >= thr else 0)`: hard threshold. -/
def Img.threshold (i : Img) (t : ℤ) : Img :=
  ⟨i.w, i.h, fun x y => if (t : ℚ) ≤ i.px x y then 255 else 0⟩

/-- `dst.paste(src, (ox, oy))` without a mask: rectangle copy (PIL clips
out-of-bounds parts, which in this total-function model is automatic
because pixels are only meaningful inside the destination domain). -/
def Img.paste (dst src : Img) (ox oy : ℤ) : Img :=
  ⟨dst.w, dst.h, fun x y =>
    if ox ≤ x ∧ x < ox + src.w ∧ oy ≤ y ∧ y < oy + src.h then
      src.px (x - ox) (y - oy)
    else dst.px x y⟩

/-- `dst.paste(src, (ox, oy), mask)` with a binary (0/255) mask: the
source pixel lands wherever the mask is set inside the paste region. -/
def Img.pasteMask (dst src : Img) (ox oy : ℤ) (mask : ℤ → ℤ → Bool) : Img :=
  ⟨dst.w, dst.h, fun x y =>
    if (ox ≤ x ∧ x < ox + src.w ∧ oy ≤ y ∧ y < oy + src.h) ∧
        mask (x - ox) (y - oy) then
      src.px (x - ox) (y - oy)
    else dst.px x y⟩

/-- Center square crop, as in `place_in_circle`: crop box
`(left, top, left + min_side, top + min_side)` with
`left = (w - min_side) // 2`, `top = (h - min_side) // 2`. -/
def Img.cropSquare (i : Img) : Img :=
  let m := min i.w i.h
  let l := (i.w - m) / 2
  let t := (i.h - m) / 2
  ⟨m, m, fun x y => i.px (x + l) (y + t)⟩

/-- Clamp a resampled value to the 8-bit range, as Pillow does for
mode-`L` images. -/
def clamp255 (v : ℚ) : ℚ := max 0 (min 255 v)

/-- A linear resampling scheme: `weight sw sh tw th out p` is the weight
of source pixel `p` in output pixel `out` when resizing an `sw × sh`
image to `tw × th`.  Pillow's LANCZOS filter is one such scheme. -/
structure Resampler where
  weight : ℕ → ℕ → ℕ → ℕ → ℕ × ℕ → ℕ × ℕ → ℚ

/-- A resampling scheme is normalized when the weights contributing to
any output pixel sum to 1 (true of Pillow's filters, whose kernel
weights are normalized over the support window). -/
def Resampler.Normalized (R : Resampler) : Prop :=
  ∀ sw sh tw th out, 0 < sw → 0 < sh →
    (∑ p ∈ Finset.range sw ×ˢ Finset.range sh, R.weight sw sh tw th out p) = 1

/-- `img.resize((tw, th), resample=LANCZOS)`: linear resampling with
clamping, for an arbitrary scheme `R`. -/
def resizeWith (R : Resampler) (src : Img) (tw th : ℕ) : Img :=
  ⟨tw, th, fun x y =>
    clamp255 (∑ p ∈ Finset.range src.w ×ˢ Finset.range src.h,
      R.weight src.w src.h tw th (x.toNat, y.toNat) p * src.px p.1 p.2)⟩

/-- Modelled from Pillow: membership test for `draw.ellipse` filling the
ellipse inscribed in the `w × h` box (pixel-center test).  Only pixels
inside the box are covered. -/
def ellipseMaskWH (w h : ℕ) (x y : ℤ) : Bool :=
  decide (0 ≤ x) && decide (x < (w : ℤ)) && decide (0 ≤ y) && decide (y < (h : ℤ)) &&
    decide ((2*x + 1 - w)^2 * (h : ℤ)^2 + (2*y + 1 - h)^2 * (w : ℤ)^2 ≤ (w : ℤ)^2 * (h : ℤ)^2)

/-- The elliptical mask built by `place_in_circle` / `paste_circle` for
a `(2*rx) × (2*ry)` inset. -/
def ellipseMask (rx ry : ℕ) (x y : ℤ) : Bool := ellipseMaskWH (2*rx) (2*ry) x y

/-! ### Physical-to-pixel transform (`recompute_scalars` and inline uses) -/

/-- `px_per_mm_x = W_px / screen_width_mm` (and the Y analogue). -/
def pxPerMm (npx : ℕ) (mm : ℚ) : ℚ := (npx : ℚ) / mm

/-- `radius_px_x = int(radius_mm * px_per_mm_x)` in
`render_bitmap_to_photomask` (and the GDS analogue). -/
def radiusPx (npx : ℕ) (mm diam : ℚ) : ℕ := (pyInt ((diam / 2) * pxPerMm npx mm)).toNat

/-- `left_center_x = int(circle_offset_mm * px_per_mm_x)`. -/
def leftCenterX (Wpx : ℕ) (swmm off : ℚ) : ℤ := pyInt (off * pxPerMm Wpx swmm)

/-- `right_center_x = int((screen_width_mm - circle_offset_mm) * px_per_mm_x)`. -/
def rightCenterX (Wpx : ℕ) (swmm off : ℚ) : ℤ := pyInt ((swmm - off) * pxPerMm Wpx swmm)

/-- `center_y = H_px // 2`. -/
def centerY (Hpx : ℕ) : ℤ := (Hpx / 2 : ℕ)

/-! ### Bitmap dual-circle compositor (`bitmap2lcdmask.place_in_circle`,
`render_bitmap_to_photomask`) -/

/-- `place_in_circle(base, content, center, rx, ry, threshold, invert)`:
grayscale → optional threshold → optional invert → center-square crop →
LANCZOS resize to the ellipse box → elliptically-masked paste. -/
def place_in_circle (R : Resampler) (base content : Img) (cx cy : ℤ)
    (rx ry : ℕ) (threshold : Option ℤ) (invert : Bool) : Img :=
  let c1 := match threshold with
    | some t => content.threshold t
    | none => content
  let c2 := if invert then c1.invert else c1
  let scaled := resizeWith R c2.cropSquare (2*rx) (2*ry)
  base.pasteMask scaled (cx - rx) (cy - ry) (ellipseMask rx ry)

/-- `render_bitmap_to_photomask` up to (but excluding) the final
`ImageOps.mirror`: blank canvas, left placement (not inverted), right
placement (inverted). -/
def renderBitmapPre (R : Resampler) (content : Img) (threshold : ℤ)
    (Wpx Hpx : ℕ) (swmm shmm diam off : ℚ) : Img :=
  let rx := radiusPx Wpx swmm diam
  let ry := radiusPx Hpx shmm diam
  let base := Img.new Wpx Hpx 0
  let base1 := place_in_circle R base content (leftCenterX Wpx swmm off)
    (centerY Hpx) rx ry (some threshold) false
  place_in_circle R base1 content (rightCenterX Wpx swmm off)
    (centerY Hpx) rx ry (some threshold) true

/-- `render_bitmap_to_photomask`: the pre-mirror composition followed by
the unconditional global `ImageOps.mirror`. -/
def renderBitmap (R : Resampler) (content : Img) (threshold : ℤ)
    (Wpx Hpx : ℕ) (swmm shmm diam off : ℚ) : Img :=
  (renderBitmapPre R content threshold Wpx Hpx swmm shmm diam off).mirror

/-! ### GDS dual-circle placement (`gds2lcdmask.paste_circle`) -/

/-- `paste_circle(base, img, rx, ry, px_mm_x, px_mm_y, pos, offset_mm,
invert)`: optional invert, center from the position keyword (the right
center recovers the display width in mm as `base.width / px_mm_x`),
elliptically-masked paste. -/
def paste_circle (base img : Img) (rx ry : ℕ) (pxmmX pxmmY : ℚ)
    (posLeft : Bool) (off : ℚ) (invert : Bool) : Img :=
  let img1 := if invert then img.invert else img
  let cy : ℤ := (base.h / 2 : ℕ)
  let cx : ℤ :=
    if posLeft then pyInt (off * pxmmX)
    else pyInt (((base.w : ℚ) / pxmmX - off) * pxmmX)
  base.pasteMask img1 (cx - rx) (cy - ry) (ellipseMaskWH img1.w img1.h)

/-! ### Gerber PCB-canvas compositor (`gerber2lcdmask.build_canvas`,
identically `maskforge_toolkit._gerber_build_canvas`) -/

/-- `DRAW_W = math.ceil(PCB_W_MM * PX_PER_MM_X)` (and the Y analogue):
PCB sub-canvas dimension in pixels. -/
def gerberDraw (pcbmm pxmm : ℚ) : ℕ := (⌈pcbmm * pxmm⌉).toNat

/-- `img.resize((int(PX_PER_MM_X * w), int(PX_PER_MM_Y * h)), LANCZOS)`. -/
def gerberResize (R : Resampler) (img : Img) (pxX pxY wmm hmm : ℚ) : Img :=
  resizeWith R img (pyInt (pxX * wmm)).toNat (pyInt (pxY * hmm)).toNat

/-- `offset_x = round(float(min_x_mm) * PX_PER_MM_X)`. -/
def gerberOffsetX (minx pxX : ℚ) : ℤ := pyRound (minx * pxX)

/-- `offset_y = round(-(float(max_y_mm)) * PX_PER_MM_Y)`. -/
def gerberOffsetY (maxy pxY : ℚ) : ℤ := pyRound (-maxy * pxY)

/-- The white PCB sub-canvas with the resized layer raster pasted at the
physical offset: `canvas_pcb = Image.new("L", (DRAW_W, DRAW_H), 255)`
followed by `canvas_pcb.paste(img, (offset_x, offset_y))`. -/
def gerberPastedLayer (R : Resampler) (img : Img)
    (minx maxy wmm hmm pxX pxY pcbW pcbH : ℚ) : Img :=
  (Img.new (gerberDraw pcbW pxX) (gerberDraw pcbH pxY) 255).paste
    (gerberResize R img pxX pxY wmm hmm)
    (gerberOffsetX minx pxX) (gerberOffsetY maxy pxY)

/-- The PCB sub-canvas after the optional mirror and then the optional
invert, in that order. -/
def gerberSubCanvas (R : Resampler) (img : Img) (invert mirror : Bool)
    (minx maxy wmm hmm pxX pxY pcbW pcbH : ℚ) : Img :=
  let c1 := gerberPastedLayer R img minx maxy wmm hmm pxX pxY pcbW pcbH
  let c2 := if mirror then c1.mirror else c1
  if invert then c2.invert else c2

/-- `build_canvas(img, invert, mirror, min_x_mm, max_y_mm, w, h)`: the
processed sub-canvas composited onto the black display canvas at
`((DISPLAY_PIX_W - DRAW_W) // 2, (DISPLAY_PIX_H - DRAW_H) // 2)`
(Python `//` is floor division). -/
def build_canvas (R : Resampler) (img : Img) (invert mirror : Bool)
    (minx maxy wmm hmm : ℚ) (dispW dispH : ℕ) (pxX pxY pcbW pcbH : ℚ) : Img :=
  (Img.new dispW dispH 0).paste
    (gerberSubCanvas R img invert mirror minx maxy wmm hmm pxX pxY pcbW pcbH)
    (Int.fdiv ((dispW : ℤ) - (gerberDraw pcbW pxX : ℕ)) 2)
    (Int.fdiv ((dispH : ℤ) - (gerberDraw pcbH pxY : ℕ)) 2)

/-! ### GDS adapter (`gds2lcdmask.render_gds_to_photomask`,
identically `maskforge_toolkit._gds_render_to_photomask`)

The GDSII engine (gdspy) is a black box per the spec; a flattened cell
is modelled directly by its absolute-coordinate polygons keyed by
`(layer, datatype)`, as returned by `get_polygons(by_spec=True)`, and a
library by its name-keyed cell list. -/

/-- A flattened GDS cell: polygon lists keyed by `(layer, datatype)`,
vertices in micrometers. -/
structure GdsCell where
  polys : List ((ℕ × ℕ) × List (List (ℚ × ℚ)))

/-- A GDS library: association list from cell name to cell. -/
structure GdsLib where
  cells : List (String × GdsCell)

/-- `del lib.cells[name]` (guarded by `if name in lib.cells`). -/
def GdsLib.removeCell (lib : GdsLib) (name : String) : GdsLib :=
  ⟨lib.cells.filter (fun p => p.1 ≠ name)⟩

/-- All vertices of all polygons of a cell, over every layer/datatype. -/
def GdsCell.points (c : GdsCell) : List (ℚ × ℚ) :=
  ((c.polys.map (fun p => p.2)).flatten).flatten

/-- `cell.get_bounding_box()`: `none` for a cell with no geometry,
otherwise `((min_x, min_y), (max_x, max_y))` in micrometers. -/
def GdsCell.bbox (c : GdsCell) : Option ((ℚ × ℚ) × (ℚ × ℚ)) :=
  match c.points with
  | [] => none
  | p :: ps =>
    some (ps.foldl
      (fun bb q => ((min bb.1.1 q.1, min bb.1.2 q.2), (max bb.2.1 q.1, max bb.2.2 q.2)))
      ((p.1, p.2), (p.1, p.2)))

/-- Vertex transform of the polygon loop in `render_gds_to_photomask`:
`xs = (x - cx_um) * scale_um_to_px_x + radius_px_x`,
`ys = (cy_um - y) * scale_um_to_px_y + radius_px_y`. -/
def transformPts (cx cy sx sy : ℚ) (rx ry : ℕ) (poly : List (ℚ × ℚ)) :
    List (ℚ × ℚ) :=
  poly.map (fun p => ((p.1 - cx) * sx + rx, (cy - p.2) * sy + ry))

/-- `draw.polygon(pts, fill=255)` for one polygon, with an arbitrary
coverage predicate `raster` standing for Pillow's rasterizer. -/
def drawPolygon (raster : List (ℚ × ℚ) → ℤ → ℤ → Bool) (img : Img)
    (pts : List (ℚ × ℚ)) : Img :=
  ⟨img.w, img.h, fun x y => if raster pts x y then 255 else img.px x y⟩

/-- `render_gds_to_photomask` up to (but excluding) the final
`ImageOps.mirror`, with the temporary-cell bookkeeping made explicit:
returns the render result (or error) together with the final library
state.  The flattened copy is registered under `tempName` (the fresh
`__temp_flat__<uuid>` name) and removed again on every path that
created it. -/
def renderGdsAux (raster : List (ℚ × ℚ) → ℤ → ℤ → Bool) (lib : GdsLib)
    (cellName tempName : String) (layer : ℕ) (Wpx Hpx : ℕ)
    (swmm shmm diam off : ℚ) : Except String Img × GdsLib :=
  match lib.cells.lookup cellName with
  | none => (.error ("Cell '" ++ cellName ++ "' not found in GDS."), lib)
  | some cell =>
    let flat := cell
    let lib1 : GdsLib := ⟨lib.cells ++ [(tempName, flat)]⟩
    let polys := (flat.polys.lookup (layer, 0)).getD []
    if polys.isEmpty then
      (.error ("No geometry on layer " ++ toString layer ++ "."),
        lib1.removeCell tempName)
    else
      match flat.bbox with
      | none =>
        (.error "Empty cell; no bounding box found.", lib1.removeCell tempName)
      | some bb =>
        let pxX := pxPerMm Wpx swmm
        let pxY := pxPerMm Hpx shmm
        let rx := radiusPx Wpx swmm diam
        let ry := radiusPx Hpx shmm diam
        let sx := pxX / 1000
        let sy := pxY / 1000
        let cx := (bb.1.1 + bb.2.1) / 2
        let cy := (bb.1.2 + bb.2.2) / 2
        let gdsImg := polys.foldl
          (fun im poly => drawPolygon raster im (transformPts cx cy sx sy rx ry poly))
          (Img.new (2*rx) (2*ry) 0)
        let base := Img.new Wpx Hpx 0
        let base1 := paste_circle base gdsImg rx ry pxX pxY true off false
        let base2 := paste_circle base1 gdsImg rx ry pxX pxY false off true
        (.ok base2, lib1.removeCell tempName)

/-- `render_gds_to_photomask`: the pre-mirror computation followed by
the unconditional global `ImageOps.mirror` on the success path. -/
def renderGds (raster : List (ℚ × ℚ) → ℤ → ℤ → Bool) (lib : GdsLib)
    (cellName tempName : String) (layer : ℕ) (Wpx Hpx : ℕ)
    (swmm shmm diam off : ℚ) : Except String Img × GdsLib :=
  let r := renderGdsAux raster lib cellName tempName layer Wpx Hpx swmm shmm diam off
  (r.1.map Img.mirror, r.2)

/-! ### Concrete fixtures used to evaluate the definitions -/

/-- A trivial normalized resampling scheme (each output pixel copies
source pixel `(0,0)`); used to instantiate resampler-generic theorems. -/
def nnResampler : Resampler :=
  ⟨fun _ _ _ _ _ p => if p = (0, 0) then 1 else 0⟩

/-- A small constant test image. -/
def testImg : Img := Img.new 3 3 100

/-- A coverage predicate covering nothing (stand-in rasterizer). -/
def noRaster : List (ℚ × ℚ) → ℤ → ℤ → Bool := fun _ _ _ => false

/-- A one-cell test library: cell `TOP` with one triangle on layer 1,
datatype 0. -/
def testLib : GdsLib :=
  ⟨[("TOP", ⟨[((1, 0), [[(0, 0), (2, 0), (1, 2)]])]⟩)]⟩

/-! ## Proofs -/

theorem pyInt_of_nonneg {q : ℚ} (h : 0 ≤ q) : pyInt q = ⌊q⌋ := by
  simp [pyInt, h]

theorem ellipseMask_bounds {rx ry : ℕ} {x y : ℤ}
    (h : ellipseMask rx ry x y = true) :
    0 ≤ x ∧ x < 2*(rx : ℤ) ∧ 0 ≤ y ∧ y < 2*(ry : ℤ) := by
  simp only [ellipseMask, ellipseMaskWH, Bool.and_eq_true, decide_eq_true_eq] at h
  refine ⟨h.1.1.1.1, ?_, h.1.1.2, ?_⟩
  · exact_mod_cast h.1.1.1.2
  · exact_mod_cast h.1.2

theorem nnResampler_normalized : nnResampler.Normalized := by
  intro sw sh tw th out hsw hsh
  simp only [nnResampler]
  rw [Finset.sum_ite_eq' (Finset.range sw ×ˢ Finset.range sh) (0, 0) (fun _ => (1 : ℚ))]
  simp [Finset.mem_product, hsw, hsh]

theorem pasteMask_inside (dst src : Img) (ox oy : ℤ) (mask : ℤ → ℤ → Bool)
    (u v : ℤ) (hu0 : 0 ≤ u) (hu : u < (src.w : ℤ)) (hv0 : 0 ≤ v)
    (hv : v < (src.h : ℤ)) (hm : mask u v = true) :
    (dst.pasteMask src ox oy mask).px (ox + u) (oy + v) = src.px u v := by
  have e1 : ox + u - ox = u := by ring
  have e2 : oy + v - oy = v := by ring
  simp only [Img.pasteMask]
  rw [if_pos]
  · rw [e1, e2]
  · exact ⟨⟨by omega, by omega, by omega, by omega⟩, by rw [e1, e2]; exact hm⟩

theorem pasteMask_outside (dst src : Img) (ox oy : ℤ) (mask : ℤ → ℤ → Bool)
    (x y : ℤ)
    (h : ¬((ox ≤ x ∧ x < ox + (src.w : ℤ) ∧ oy ≤ y ∧ y < oy + (src.h : ℤ)) ∧
        mask (x - ox) (y - oy) = true)) :
    (dst.pasteMask src ox oy mask).px x y = dst.px x y := by
  simp only [Img.pasteMask]
  rw [if_neg h]

theorem paste_inside (dst src : Img) (ox oy u v : ℤ)
    (hu0 : 0 ≤ u) (hu : u < (src.w : ℤ)) (hv0 : 0 ≤ v) (hv : v < (src.h : ℤ)) :
    (dst.paste src ox oy).px (ox + u) (oy + v) = src.px u v := by
  have e1 : ox + u - ox = u := by ring
  have e2 : oy + v - oy = v := by ring
  simp only [Img.paste]
  rw [if_pos]
  · rw [e1, e2]
  · exact ⟨by omega, by omega, by omega, by omega⟩

theorem paste_outside (dst src : Img) (ox oy x y : ℤ)
    (h : ¬(ox ≤ x ∧ x < ox + (src.w : ℤ) ∧ oy ≤ y ∧ y < oy + (src.h : ℤ))) :
    (dst.paste src ox oy).px x y = dst.px x y := by
  simp only [Img.paste]
  rw [if_neg h]

theorem cropSquare_invert (i : Img) : i.invert.cropSquare = i.cropSquare.invert := rfl

theorem clamp255_sub (s : ℚ) : clamp255 (255 - s) = 255 - clamp255 s := by
  simp only [clamp255, max_def, min_def]
  split_ifs <;> linarith

theorem resizeWith_invert (R : Resampler) (hR : R.Normalized) (src : Img)
    (hw : 0 < src.w) (hh : 0 < src.h) (tw th : ℕ) (x y : ℤ) :
    (resizeWith R src.invert tw th).px x y = 255 - (resizeWith R src tw th).px x y := by
  simp only [resizeWith, Img.invert]
  rw [show (∑ p ∈ Finset.range src.w ×ˢ Finset.range src.h,
        R.weight src.w src.h tw th (x.toNat, y.toNat) p * (255 - src.px p.1 p.2)) =
      255 * (∑ p ∈ Finset.range src.w ×ˢ Finset.range src.h,
        R.weight src.w src.h tw th (x.toNat, y.toNat) p) -
      (∑ p ∈ Finset.range src.w ×ˢ Finset.range src.h,
        R.weight src.w src.h tw th (x.toNat, y.toNat) p * src.px p.1 p.2) by
    rw [Finset.mul_sum, ← Finset.sum_sub_distrib]
    exact Finset.sum_congr rfl (fun p _ => by ring)]
  rw [hR src.w src.h tw th (x.toNat, y.toNat) hw hh, mul_one]
  exact clamp255_sub _

/-- C7: in the dual-circle compositor, the final canvas equals the
horizontal mirror of the same computation with the final mirror step
skipped, in both the bitmap and the GDS pipeline, and horizontal
mirroring is an involution on images. -/
theorem C7_global_mirror :
    (∀ (R : Resampler) (content : Img) (threshold : ℤ) (Wpx Hpx : ℕ)
        (swmm shmm diam off : ℚ),
      renderBitmap R content threshold Wpx Hpx swmm shmm diam off =
        (renderBitmapPre R content threshold Wpx Hpx swmm shmm diam off).mirror) ∧
    (∀ (raster : List (ℚ × ℚ) → ℤ → ℤ → Bool) (lib : GdsLib)
        (cellName tempName : String) (layer : ℕ) (Wpx Hpx : ℕ)
        (swmm shmm diam off : ℚ),
      (renderGds raster lib cellName tempName layer Wpx Hpx swmm shmm diam off).1 =
        (renderGdsAux raster lib cellName tempName layer Wpx Hpx swmm shmm diam
            off).1.map Img.mirror) ∧
    (∀ i : Img, i.mirror.mirror = i) := by
  refine ⟨fun _ _ _ _ _ _ _ _ _ => rfl, fun _ _ _ _ _ _ _ _ _ _ _ => rfl, fun i => ?_⟩
  ext x y
  · rfl
  · rfl
  · show i.px ((i.w : ℤ) - 1 - ((i.w : ℤ) - 1 - x)) y = i.px x y
    rw [show (i.w : ℤ) - 1 - ((i.w : ℤ) - 1 - x) = x by ring]

/-- C8: threshold binarization (255 when intensity ≥ threshold, else 0)
is idempotent for every threshold in 0–254 and every grayscale image
(pixels in the valid nonnegative range). -/
theorem C8_threshold_idempotent (t : ℤ) (img : Img) (h0 : 0 ≤ t)
    (h254 : t ≤ 254) (hpx : ∀ x y, 0 ≤ img.px x y) :
    (img.threshold t).threshold t = img.threshold t := by
  ext x y
  · rfl
  · rfl
  · show (if (t : ℚ) ≤ (if (t : ℚ) ≤ img.px x y then 255 else 0) then (255 : ℚ) else 0) =
      if (t : ℚ) ≤ img.px x y then 255 else 0
    by_cases h : (t : ℚ) ≤ img.px x y
    · rw [if_pos h, if_pos]
      calc (t : ℚ) ≤ 254 := by exact_mod_cast h254
        _ ≤ 255 := by norm_num
    · rw [if_neg h, if_neg]
      intro habs
      have ht0 : (t : ℚ) = 0 := le_antisymm habs (by exact_mod_cast h0)
      exact h (ht0 ▸ hpx x y)

/-- C8 witness: idempotence at threshold 128 on a concrete image. -/
theorem C8_witness :
    (0 : ℤ) ≤ 128 ∧ (128 : ℤ) ≤ 254 ∧
    (testImg.threshold 128).threshold 128 = testImg.threshold 128 :=
  ⟨by norm_num, by norm_num,
    C8_threshold_idempotent 128 testImg (by norm_num) (by norm_num)
      (fun x y => by norm_num [testImg, Img.new])⟩

/-- C3 counterexample: the claim computes circle centers with
`round(mm * px_per_mm_x)`, but the code uses Python `int()`
(truncation).  For a 3-pixel, 2-mm display and a 1-mm offset the code
places the left center at pixel 1 while rounding would give 2. -/
theorem C3_counterexample :
    leftCenterX 3 2 1 ≠ pyRound (1 * pxPerMm 3 2) := by
  have h1 : leftCenterX 3 2 1 = 1 := by
    norm_num [leftCenterX, pyInt, pxPerMm]
  have h2 : pyRound (1 * pxPerMm 3 2) = 2 := by
    norm_num [pyRound, pxPerMm]
  rw [h1, h2]
  norm_num

/-- C3 (amended): the left circle center is at
`x = int(offset_from_edge_mm * px_per_mm_x)` (Python `int`, i.e. floor
for the nonnegative quantities involved), the right circle center at
`x = int((display_width_mm − offset_from_edge_mm) * px_per_mm_x)`,
both at `y = canvas_height // 2`; the GDS variant, which recovers the
display width in mm as `base.width / px_mm_x`, computes the same right
center. -/
theorem C3_circle_centers (Wpx Hpx : ℕ) (swmm off : ℚ)
    (hW : 0 < Wpx) (hsw : 0 < swmm)
    (hoff : 0 ≤ off * pxPerMm Wpx swmm)
    (hroff : 0 ≤ (swmm - off) * pxPerMm Wpx swmm) :
    leftCenterX Wpx swmm off = ⌊off * ((Wpx : ℚ) / swmm)⌋ ∧
    rightCenterX Wpx swmm off = ⌊(swmm - off) * ((Wpx : ℚ) / swmm)⌋ ∧
    centerY Hpx = ((Hpx / 2 : ℕ) : ℤ) ∧
    pyInt (((Wpx : ℚ) / pxPerMm Wpx swmm - off) * pxPerMm Wpx swmm) =
      rightCenterX Wpx swmm off := by
  have hWQ : ((Wpx : ℚ)) ≠ 0 := by positivity
  have hswQ : (swmm : ℚ) ≠ 0 := ne_of_gt hsw
  refine ⟨?_, ?_, rfl, ?_⟩
  · rw [leftCenterX, pyInt_of_nonneg hoff, pxPerMm]
  · rw [rightCenterX, pyInt_of_nonneg hroff, pxPerMm]
  · rw [rightCenterX]
    congr 1
    rw [pxPerMm]
    field_simp

/-- C3 witness: the amended center formulas at a 3×2-pixel, 2-mm-wide
display with a 1-mm offset. -/
theorem C3_witness :
    leftCenterX 3 2 1 = ⌊(1 : ℚ) * ((3 : ℚ) / 2)⌋ ∧
    rightCenterX 3 2 1 = ⌊((2 : ℚ) - 1) * ((3 : ℚ) / 2)⌋ ∧
    centerY 2 = ((2 / 2 : ℕ) : ℤ) ∧
    pyInt (((3 : ℚ) / pxPerMm 3 2 - 1) * pxPerMm 3 2) = rightCenterX 3 2 1 := by
  have h := C3_circle_centers 3 2 (2 : ℚ) 1 (by norm_num) (by norm_num)
    (by norm_num [pxPerMm]) (by norm_num [pxPerMm])
  exact_mod_cast h

/-- C4 counterexample: the claim sizes the PCB sub-canvas with
`round(mm * px_per_mm)`, but the code uses `math.ceil`.  At
2.25 px/mm and a 1-mm PCB dimension the code allocates 3 pixels while
rounding would give 2. -/
theorem C4_counterexample :
    ((gerberDraw 1 (9/4) : ℕ) : ℤ) ≠ pyRound (1 * (9/4)) := by
  have hc : (⌈(1 : ℚ) * (9/4)⌉ : ℤ) = 3 := by
    rw [Int.ceil_eq_iff]
    constructor <;> norm_num
  have hr : pyRound ((1 : ℚ) * (9/4)) = 2 := by
    norm_num [pyRound]
  rw [hr, gerberDraw, hc]
  norm_num

/-- C4 (amended): the allocated PCB sub-canvas has dimensions exactly
`(ceil(pcb_width_mm * px_per_mm_x), ceil(pcb_height_mm * px_per_mm_y))`
pixels and is filled with white (255) before the layer raster is
pasted: every pixel outside the pasted-layer rectangle still reads
255. -/
theorem C4_subcanvas (R : Resampler) (img : Img)
    (minx maxy wmm hmm pxX pxY pcbW pcbH : ℚ) :
    (gerberPastedLayer R img minx maxy wmm hmm pxX pxY pcbW pcbH).w =
      (⌈pcbW * pxX⌉).toNat ∧
    (gerberPastedLayer R img minx maxy wmm hmm pxX pxY pcbW pcbH).h =
      (⌈pcbH * pxY⌉).toNat ∧
    (∀ x y : ℤ, (Img.new (gerberDraw pcbW pxX) (gerberDraw pcbH pxY) 255).px x y = 255) ∧
    (∀ x y : ℤ,
      ¬(gerberOffsetX minx pxX ≤ x ∧
          x < gerberOffsetX minx pxX + ((gerberResize R img pxX pxY wmm hmm).w : ℤ) ∧
          gerberOffsetY maxy pxY ≤ y ∧
          y < gerberOffsetY maxy pxY + ((gerberResize R img pxX pxY wmm hmm).h : ℤ)) →
        (gerberPastedLayer R img minx maxy wmm hmm pxX pxY pcbW pcbH).px x y = 255) := by
  refine ⟨rfl, rfl, fun x y => rfl, fun x y h => ?_⟩
  rw [gerberPastedLayer, paste_outside _ _ _ _ _ _ h]
  rfl

/-- C4 witness: the amended sub-canvas facts at concrete parameters
(2.25 px/mm, 1-mm PCB side, empty offsets), evaluated at the
out-of-region pixel (-1, 0). -/
theorem C4_witness :
    (gerberPastedLayer nnResampler testImg 0 0 1 1 (9/4) (9/4) 1 1).w =
      (⌈(1 : ℚ) * (9/4)⌉).toNat ∧
    (gerberPastedLayer nnResampler testImg 0 0 1 1 (9/4) (9/4) 1 1).px (-1) 0 = 255 := by
  have h := C4_subcanvas nnResampler testImg 0 0 1 1 (9/4) (9/4) 1 1
  refine ⟨h.1, h.2.2.2 (-1) 0 ?_⟩
  intro hc
  have h0 : gerberOffsetX 0 (9/4) = 0 := by
    norm_num [gerberOffsetX, pyRound]
  rw [h0] at hc
  omega

/-- C2: in the PCB-canvas compositor the resampled layer raster is
pasted into the PCB sub-canvas at exactly pixel offset
`(round(min_x_mm * px_per_mm_x), round(-max_y_mm * px_per_mm_y))`
(Python banker's rounding), and the sub-canvas is composited onto the
display canvas at `((display_px_w − pcb_px_w) // 2,
(display_px_h − pcb_px_h) // 2)`: inside the respective target
rectangles every destination pixel reads the corresponding source
pixel. -/
theorem C2_paste_offsets (R : Resampler) (img : Img) (invert mirror : Bool)
    (minx maxy wmm hmm : ℚ) (dispW dispH : ℕ) (pxX pxY pcbW pcbH : ℚ)
    (u v x y : ℤ)
    (hu0 : 0 ≤ u) (hu : u < ((gerberResize R img pxX pxY wmm hmm).w : ℤ))
    (hv0 : 0 ≤ v) (hv : v < ((gerberResize R img pxX pxY wmm hmm).h : ℤ))
    (hx0 : 0 ≤ x)
    (hx : x < ((gerberSubCanvas R img invert mirror minx maxy wmm hmm pxX pxY
        pcbW pcbH).w : ℤ))
    (hy0 : 0 ≤ y)
    (hy : y < ((gerberSubCanvas R img invert mirror minx maxy wmm hmm pxX pxY
        pcbW pcbH).h : ℤ)) :
    (gerberPastedLayer R img minx maxy wmm hmm pxX pxY pcbW pcbH).px
        (pyRound (minx * pxX) + u) (pyRound (-maxy * pxY) + v) =
      (gerberResize R img pxX pxY wmm hmm).px u v ∧
    (build_canvas R img invert mirror minx maxy wmm hmm dispW dispH pxX pxY
        pcbW pcbH).px
        (Int.fdiv ((dispW : ℤ) - ((gerberDraw pcbW pxX : ℕ) : ℤ)) 2 + x)
        (Int.fdiv ((dispH : ℤ) - ((gerberDraw pcbH pxY : ℕ) : ℤ)) 2 + y) =
      (gerberSubCanvas R img invert mirror minx maxy wmm hmm pxX pxY pcbW
        pcbH).px x y := by
  constructor
  · rw [gerberPastedLayer]
    exact paste_inside _ _ _ _ u v hu0 hu hv0 hv
  · rw [build_canvas]
    exact paste_inside _ _ _ _ x y hx0 hx hy0 hy

/-- C2 witness: at 2 px/mm, a 1×1-mm layer with zero bounding offsets
on a 2×2-mm PCB in an 8×8-pixel display, the pasted pixel (0,0) and the
composited pixel (0,0) read the corresponding sources. -/
theorem C2_witness :
    (gerberPastedLayer nnResampler testImg 0 0 1 1 2 2 2 2).px
        (pyRound ((0 : ℚ) * 2) + 0) (pyRound (-(0 : ℚ) * 2) + 0) =
      (gerberResize nnResampler testImg 2 2 1 1).px 0 0 ∧
    (build_canvas nnResampler testImg false false 0 0 1 1 8 8 2 2 2 2).px
        (Int.fdiv ((8 : ℤ) - ((gerberDraw 2 2 : ℕ) : ℤ)) 2 + 0)
        (Int.fdiv ((8 : ℤ) - ((gerberDraw 2 2 : ℕ) : ℤ)) 2 + 0) =
      (gerberSubCanvas nnResampler testImg false false 0 0 1 1 2 2 2 2).px 0 0 := by
  have hrw : (gerberResize nnResampler testImg 2 2 1 1).w = 2 := by
    norm_num [gerberResize, resizeWith, pyInt]
    decide
  have hrh : (gerberResize nnResampler testImg 2 2 1 1).h = 2 := by
    norm_num [gerberResize, resizeWith, pyInt]
    decide
  have hsw : (gerberSubCanvas nnResampler testImg false false 0 0 1 1 2 2 2 2).w = 4 := by
    have hc : (⌈(2 : ℚ) * 2⌉ : ℤ) = 4 := by
      rw [Int.ceil_eq_iff]
      constructor <;> norm_num
    simp only [gerberSubCanvas, gerberPastedLayer, Img.paste, Img.new, gerberDraw,
      if_neg, Bool.false_eq_true, if_false]
    rw [hc]
    rfl
  have hsh : (gerberSubCanvas nnResampler testImg false false 0 0 1 1 2 2 2 2).h = 4 := by
    have hc : (⌈(2 : ℚ) * 2⌉ : ℤ) = 4 := by
      rw [Int.ceil_eq_iff]
      constructor <;> norm_num
    simp only [gerberSubCanvas, gerberPastedLayer, Img.paste, Img.new, gerberDraw,
      if_neg, Bool.false_eq_true, if_false]
    rw [hc]
    rfl
  exact C2_paste_offsets nnResampler testImg false false 0 0 1 1 8 8 2 2 2 2
    0 0 0 0 (le_refl 0) (by rw [hrw]; norm_num) (le_refl 0) (by rw [hrh]; norm_num)
    (le_refl 0) (by rw [hsw]; norm_num) (le_refl 0) (by rw [hsh]; norm_num)

/-- C10: for every input and every combination of the mirror and invert
flags, every display-canvas pixel outside the centered sub-canvas
rectangle is 0 (black) in the Gerber compositor's output. -/
theorem C10_outside_subcanvas_black (R : Resampler) (img : Img)
    (invert mirror : Bool) (minx maxy wmm hmm : ℚ) (dispW dispH : ℕ)
    (pxX pxY pcbW pcbH : ℚ) (x y : ℤ)
    (hx0 : 0 ≤ x) (hx : x < (dispW : ℤ)) (hy0 : 0 ≤ y) (hy : y < (dispH : ℤ))
    (hout : ¬(Int.fdiv ((dispW : ℤ) - ((gerberDraw pcbW pxX : ℕ) : ℤ)) 2 ≤ x ∧
        x < Int.fdiv ((dispW : ℤ) - ((gerberDraw pcbW pxX : ℕ) : ℤ)) 2 +
          ((gerberSubCanvas R img invert mirror minx maxy wmm hmm pxX pxY pcbW
            pcbH).w : ℤ) ∧
        Int.fdiv ((dispH : ℤ) - ((gerberDraw pcbH pxY : ℕ) : ℤ)) 2 ≤ y ∧
        y < Int.fdiv ((dispH : ℤ) - ((gerberDraw pcbH pxY : ℕ) : ℤ)) 2 +
          ((gerberSubCanvas R img invert mirror minx maxy wmm hmm pxX pxY pcbW
            pcbH).h : ℤ))) :
    (build_canvas R img invert mirror minx maxy wmm hmm dispW dispH pxX pxY
      pcbW pcbH).px x y = 0 := by
  rw [build_canvas, paste_outside _ _ _ _ _ _ hout]
  rfl

/-- C10 witness: with a 4×4-pixel sub-canvas centered in an 8×8-pixel
display the corner pixel (0,0) lies outside the centered rectangle and
reads 0, for the mirror=true, invert=true flag combination. -/
theorem C10_witness :
    (build_canvas nnResampler testImg true true 0 0 1 1 8 8 2 2 2 2).px 0 0 = 0 := by
  have hc : ((gerberDraw 2 2 : ℕ) : ℤ) = 4 := by
    have h4 : (⌈(2 : ℚ) * 2⌉ : ℤ) = 4 := by
      rw [Int.ceil_eq_iff]
      constructor <;> norm_num
    rw [gerberDraw, h4]
    rfl
  refine C10_outside_subcanvas_black nnResampler testImg true true 0 0 1 1 8 8
    2 2 2 2 0 0 (le_refl 0) (by norm_num) (le_refl 0) (by norm_num) ?_
  intro h
  rw [hc] at h
  have h84 : (((8 : ℕ) : ℤ)) - 4 = 4 := by norm_num
  rw [h84] at h
  have h42 : Int.fdiv 4 2 = 2 := by decide
  rw [h42] at h
  omega

theorem lookup_filter_ne {β : Type} (l : List (String × β)) (n : String) :
    (l.filter (fun p => p.1 ≠ n)).lookup n = none := by
  induction l with
  | nil => rfl
  | cons a t ih =>
    obtain ⟨k, v⟩ := a
    rw [List.filter_cons]
    by_cases h : k = n
    · rw [if_neg (by simp [h])]
      exact ih
    · rw [if_pos (by simp [h])]
      have hb : (n == k) = false := beq_eq_false_iff_ne.mpr (fun he => h he.symm)
      simp only [List.lookup, hb, Bool.false_eq_true, if_false]
      exact ih

theorem removeCell_lookup (lib : GdsLib) (n : String) :
    (lib.removeCell n).cells.lookup n = none :=
  lookup_filter_ne lib.cells n

/-- C5: the temporary flattened cell created under a fresh unique name
is absent from the library when the GDS render returns, on every
execution path (success or error). -/
theorem C5_temp_cell_removed (raster : List (ℚ × ℚ) → ℤ → ℤ → Bool)
    (lib : GdsLib) (cellName tempName : String) (layer : ℕ) (Wpx Hpx : ℕ)
    (swmm shmm diam off : ℚ)
    (hfresh : lib.cells.lookup tempName = none) :
    ((renderGds raster lib cellName tempName layer Wpx Hpx swmm shmm diam
      off).2).cells.lookup tempName = none := by
  rw [renderGds]
  show ((renderGdsAux raster lib cellName tempName layer Wpx Hpx swmm shmm diam
      off).2).cells.lookup tempName = none
  rw [renderGdsAux]
  cases hl : lib.cells.lookup cellName with
  | none => exact hfresh
  | some cell =>
    simp only
    split
    · exact removeCell_lookup _ _
    · split
      · exact removeCell_lookup _ _
      · exact removeCell_lookup _ _

/-- C5 witness: cleanup at a concrete library, cell, and fresh
temporary name, on a successful render. -/
theorem C5_witness :
    ((renderGds noRaster testLib "TOP" "__temp_flat__t" 1 4 4 2 2 1 1).2).cells.lookup
      "__temp_flat__t" = none :=
  C5_temp_cell_removed noRaster testLib "TOP" "__temp_flat__t" 1 4 4 2 2 1 1 rfl

/-- C6: rendering a GDS layer for which the flattened cell contains
zero polygons at datatype 0 fails with the geometry-empty error
`"No geometry on layer <n>."` rather than succeeding. -/
theorem C6_empty_layer_fails (raster : List (ℚ × ℚ) → ℤ → ℤ → Bool)
    (lib : GdsLib) (cellName tempName : String) (layer : ℕ) (Wpx Hpx : ℕ)
    (swmm shmm diam off : ℚ) (cell : GdsCell)
    (hcell : lib.cells.lookup cellName = some cell)
    (hpolys : (cell.polys.lookup (layer, 0)).getD [] = []) :
    (renderGds raster lib cellName tempName layer Wpx Hpx swmm shmm diam
      off).1 = .error ("No geometry on layer " ++ toString layer ++ ".") := by
  rw [renderGds]
  show ((renderGdsAux raster lib cellName tempName layer Wpx Hpx swmm shmm diam
      off).1).map Img.mirror = _
  rw [renderGdsAux, hcell]
  simp only [hpolys, List.isEmpty_nil, if_pos, Except.map]

/-- C6 witness: requesting layer 5 of the test cell, which has geometry
only on layer 1, fails with the geometry-empty error. -/
theorem C6_witness :
    (renderGds noRaster testLib "TOP" "__temp_flat__t" 5 4 4 2 2 1 1).1 =
      .error ("No geometry on layer " ++ toString 5 ++ ".") :=
  C6_empty_layer_fails noRaster testLib "TOP" "__temp_flat__t" 5 4 4 2 2 1 1 _ rfl rfl

theorem renderGdsAux_ok_dims (raster : List (ℚ × ℚ) → ℤ → ℤ → Bool)
    (lib : GdsLib) (cellName tempName : String) (layer : ℕ) (Wpx Hpx : ℕ)
    (swmm shmm diam off : ℚ) (img : Img)
    (hok : (renderGdsAux raster lib cellName tempName layer Wpx Hpx swmm shmm
      diam off).1 = .ok img) :
    img.w = Wpx ∧ img.h = Hpx := by
  rw [renderGdsAux] at hok
  split at hok
  · simp at hok
  · dsimp only at hok
    split at hok
    · simp at hok
    · split at hok
      · simp at hok
      · simp only at hok
        injection hok with hb
        rw [← hb]
        exact ⟨rfl, rfl⟩

/-- C9: for every successful render in every pipeline (bitmap, GDS,
Gerber), the produced canvas has dimensions exactly the configured
display pixel width × height, independent of the source image, circle
spec, and PCB spec. -/
theorem C9_output_dims (Rb : Resampler) (content : Img) (threshold : ℤ)
    (Wb Hb : ℕ) (swb shb diamb offb : ℚ)
    (raster : List (ℚ × ℚ) → ℤ → ℤ → Bool) (lib : GdsLib)
    (cellName tempName : String) (layer : ℕ) (Wg Hg : ℕ)
    (swg shg diamg offg : ℚ) (img : Img)
    (hok : (renderGds raster lib cellName tempName layer Wg Hg swg shg diamg
      offg).1 = .ok img)
    (Rq : Resampler) (imgq : Img) (invert mirror : Bool)
    (minx maxy wmm hmm : ℚ) (dispW dispH : ℕ) (pxX pxY pcbW pcbH : ℚ) :
    ((renderBitmap Rb content threshold Wb Hb swb shb diamb offb).w = Wb ∧
      (renderBitmap Rb content threshold Wb Hb swb shb diamb offb).h = Hb) ∧
    (img.w = Wg ∧ img.h = Hg) ∧
    ((build_canvas Rq imgq invert mirror minx maxy wmm hmm dispW dispH pxX pxY
        pcbW pcbH).w = dispW ∧
      (build_canvas Rq imgq invert mirror minx maxy wmm hmm dispW dispH pxX pxY
        pcbW pcbH).h = dispH) := by
  refine ⟨⟨rfl, rfl⟩, ?_, ⟨rfl, rfl⟩⟩
  have hok2 : ((renderGdsAux raster lib cellName tempName layer Wg Hg swg shg
      diamg offg).1.map Img.mirror) = .ok img := hok
  cases haux : (renderGdsAux raster lib cellName tempName layer Wg Hg swg shg
      diamg offg).1 with
  | error e =>
    rw [haux] at hok2
    simp [Except.map] at hok2
  | ok b =>
    rw [haux] at hok2
    simp only [Except.map] at hok2
    injection hok2 with hb
    have hd := renderGdsAux_ok_dims raster lib cellName tempName layer Wg Hg
      swg shg diamg offg b haux
    rw [← hb]
    exact ⟨hd.1, hd.2⟩

/-- C9 witness: the dimension facts instantiated at concrete inputs,
including a successful GDS render on the test library. -/
theorem C9_witness :
    ∃ img : Img,
      (renderGds noRaster testLib "TOP" "__temp_flat__t" 1 7 5 2 2 1 1).1 =
        .ok img ∧
      (renderBitmap nnResampler testImg 128 6 4 3 2 1 1).w = 6 ∧
      (renderBitmap nnResampler testImg 128 6 4 3 2 1 1).h = 4 ∧
      img.w = 7 ∧ img.h = 5 ∧
      (build_canvas nnResampler testImg false false 0 0 1 1 8 8 2 2 2 2).w = 8 ∧
      (build_canvas nnResampler testImg false false 0 0 1 1 8 8 2 2 2 2).h = 8 := by
  refine ⟨_, rfl, ?_⟩
  have h := C9_output_dims nnResampler testImg 128 6 4 3 2 1 1
    noRaster testLib "TOP" "__temp_flat__t" 1 7 5 2 2 1 1 _ rfl
    nnResampler testImg false false 0 0 1 1 8 8 2 2 2 2
  exact ⟨h.1.1, h.1.2, h.2.1.1, h.2.1.2, h.2.2.1, h.2.2.2⟩

theorem place_in_circle_false_px (R : Resampler) (base content : Img)
    (cx cy : ℤ) (rx ry : ℕ) (t : ℤ) (u v : ℤ)
    (hu0 : 0 ≤ u) (hu : u < 2*(rx : ℤ)) (hv0 : 0 ≤ v) (hv : v < 2*(ry : ℤ))
    (hm : ellipseMask rx ry u v = true) :
    (place_in_circle R base content cx cy rx ry (some t) false).px
        (cx - rx + u) (cy - ry + v) =
      (resizeWith R (content.threshold t).cropSquare (2*rx) (2*ry)).px u v := by
  simp only [place_in_circle, Bool.false_eq_true, if_false]
  exact pasteMask_inside _ _ _ _ _ u v hu0
    (by show u < ((2*rx : ℕ) : ℤ); push_cast; omega) hv0
    (by show v < ((2*ry : ℕ) : ℤ); push_cast; omega) hm

theorem place_in_circle_true_px (R : Resampler) (hR : R.Normalized)
    (base content : Img) (hcw : 0 < content.w) (hch : 0 < content.h)
    (cx cy : ℤ) (rx ry : ℕ) (t : ℤ) (u v : ℤ)
    (hu0 : 0 ≤ u) (hu : u < 2*(rx : ℤ)) (hv0 : 0 ≤ v) (hv : v < 2*(ry : ℤ))
    (hm : ellipseMask rx ry u v = true) :
    (place_in_circle R base content cx cy rx ry (some t) true).px
        (cx - rx + u) (cy - ry + v) =
      255 - (resizeWith R (content.threshold t).cropSquare (2*rx) (2*ry)).px u v := by
  simp only [place_in_circle, if_true]
  rw [cropSquare_invert]
  rw [pasteMask_inside _ _ _ _ _ u v hu0
    (by show u < ((2*rx : ℕ) : ℤ); push_cast; omega) hv0
    (by show v < ((2*ry : ℕ) : ℤ); push_cast; omega) hm]
  exact resizeWith_invert R hR (content.threshold t).cropSquare
    (lt_min hcw hch) (lt_min hcw hch) (2*rx) (2*ry) u v

theorem place_in_circle_px_outside (R : Resampler) (base content : Img)
    (cx cy : ℤ) (rx ry : ℕ) (thr : Option ℤ) (inv : Bool) (x y : ℤ)
    (hx : x < cx - rx) :
    (place_in_circle R base content cx cy rx ry thr inv).px x y = base.px x y := by
  simp only [place_in_circle]
  exact pasteMask_outside _ _ _ _ _ x y (fun hc => absurd hc.1.1 (not_le.mpr hx))

/-- C1: in the bitmap dual-circle compositor, for every square
grayscale source image (with at least one pixel), every display
geometry and circle spec whose two insets do not overlap, and every
threshold, the right-side inset on the pre-mirror canvas is the exact
tonal inverse of the left-side inset: for every pixel inside the
elliptical mask, `right = 255 - left`, inversion being applied to the
right placement only. -/
theorem C1_right_inset_inverse (R : Resampler) (hR : R.Normalized)
    (content : Img) (hsq : content.w = content.h) (hw : 0 < content.w)
    (threshold : ℤ) (Wpx Hpx : ℕ) (swmm shmm diam off : ℚ) (u v : ℤ)
    (hm : ellipseMask (radiusPx Wpx swmm diam) (radiusPx Hpx shmm diam) u v = true)
    (hsep : leftCenterX Wpx swmm off + (radiusPx Wpx swmm diam : ℤ) ≤
      rightCenterX Wpx swmm off - (radiusPx Wpx swmm diam : ℤ)) :
    (renderBitmapPre R content threshold Wpx Hpx swmm shmm diam off).px
        (rightCenterX Wpx swmm off - (radiusPx Wpx swmm diam : ℤ) + u)
        (centerY Hpx - (radiusPx Hpx shmm diam : ℤ) + v) =
      255 - (renderBitmapPre R content threshold Wpx Hpx swmm shmm diam off).px
        (leftCenterX Wpx swmm off - (radiusPx Wpx swmm diam : ℤ) + u)
        (centerY Hpx - (radiusPx Hpx shmm diam : ℤ) + v) := by
  obtain ⟨hu0, hu, hv0, hv⟩ := ellipseMask_bounds hm
  have hch : 0 < content.h := hsq ▸ hw
  simp only [renderBitmapPre]
  rw [place_in_circle_true_px R hR _ content hw hch _ _ _ _ threshold u v
    hu0 hu hv0 hv hm]
  rw [place_in_circle_px_outside R _ content _ _ _ _ (some threshold) true _ _
    (by omega)]
  rw [place_in_circle_false_px R _ content _ _ _ _ threshold u v
    hu0 hu hv0 hv hm]

/-- C1 witness: the invariant at a concrete geometry (20×10 px over
10×5 mm, 2-mm circle diameter, 3-mm edge offset, threshold 128) and
mask pixel (2, 2). -/
theorem C1_witness :
    (renderBitmapPre nnResampler testImg 128 20 10 10 5 2 3).px
        (rightCenterX 20 10 3 - (radiusPx 20 10 2 : ℤ) + 2)
        (centerY 10 - (radiusPx 10 5 2 : ℤ) + 2) =
      255 - (renderBitmapPre nnResampler testImg 128 20 10 10 5 2 3).px
        (leftCenterX 20 10 3 - (radiusPx 20 10 2 : ℤ) + 2)
        (centerY 10 - (radiusPx 10 5 2 : ℤ) + 2) := by
  have hrx : radiusPx 20 10 2 = 2 := by
    norm_num [radiusPx, pyInt, pxPerMm]
    decide
  have hry : radiusPx 10 5 2 = 2 := by
    norm_num [radiusPx, pyInt, pxPerMm]
    decide
  have hlc : leftCenterX 20 10 3 = 6 := by
    norm_num [leftCenterX, pyInt, pxPerMm]
  have hrc : rightCenterX 20 10 3 = 14 := by
    norm_num [rightCenterX, pyInt, pxPerMm]
  refine C1_right_inset_inverse nnResampler nnResampler_normalized testImg rfl
    (by norm_num [testImg, Img.new]) 128 20 10 10 5 2 3 2 2 ?_ ?_
  · rw [hrx, hry]
    decide
  · rw [hrx, hlc, hrc]
    norm_num

end Maskforge
